/-
Verification of the aistamp vision server (`src/main.py`) against its
natural-language specification.

The file shallowly embeds the Python program:
* the startup (`lifespan`) routine that loads reference images and
  configures the generative model,
* the static `OBJECT_TO_PLANET_MAP` table,
* the request handler `recognize_stamp_object`, including the data-URL
  splitting (`split(',')[1]`), the regex search
  `\[MATCH:\s*(page_\d+_img_\d+\.jpg)\]` over the model response, and the
  structured success / no-match / HTTP-error responses.

External capabilities (base64 decoding plus PIL image opening, and the
Gemini model call) are black boxes per the spec; they are modelled as
oracle functions carried in an `Externals` record.  Strings are modelled
as Lean `String`s; where character-level processing happens in the source
(splitting, regex search, stripping) the embedding works on `List Char`.

The embedding-based Query Matcher that the spec describes (section 4.2)
is not present in `src/`; it is modelled from the spec at the end of the
definitions, clearly marked.
-/
import Mathlib

set_option autoImplicit false

namespace AistampVerify

/-- An opened PIL image, identified by the path (or payload) it was opened
from.  The image contents are opaque to the program logic. -/
abbrev Image := String

/-- One element of the multimodal prompt list `prompt_parts`: either a text
instruction / header, or an image. -/
inductive PromptPart where
  | text (s : String)
  | image (img : Image)
  deriving DecidableEq, Repr

/-- One directory entry of the `reference_images` root, as seen by
`reference_dir.iterdir()`: its name, whether it is a subdirectory, and the
names of the files it contains (in the order `glob` yields them). -/
structure DirEntry where
  name : String
  isDir : Bool
  files : List String
  deriving DecidableEq, Repr

/-- The process-wide globals of `main.py`: `MODEL`, `REFERENCE_IMAGES`
(a dict `object_id -> list of images`, modelled as an insertion-ordered
association list) and `INITIALIZATION_ERROR`. -/
structure ServerState where
  model : Option String
  referenceImages : List (String × List Image)
  initializationError : Option String
  deriving DecidableEq, Repr

/-- The JSON request body: `payload.get("image")`.  A missing field is
`none`.  (A non-string JSON value in the field is outside this model.) -/
structure Payload where
  image : Option String
  deriving DecidableEq, Repr

/-- Oracles for the two external capabilities used inside the `try` block:
`decodeImage` is `base64.b64decode` followed by `PIL.Image.open` applied to
the extracted base64 payload, and `generate` is
`MODEL.generate_content_async(prompt_parts)` followed by reading `.text`.
An `Except.error e` is a raised exception whose `str(e)` is `e`. -/
structure Externals where
  decodeImage : String → Except String Image
  generate : List PromptPart → Except String String

/-- A JSON body returned with HTTP 200. -/
inductive RespBody where
  | success (planetId : String)
  | noMatch
  deriving DecidableEq, Repr

/-- The HTTP response of the endpoint: a 200 JSON body, or an
`HTTPException(status_code, detail)`. -/
inductive Resp where
  | ok (body : RespBody)
  | err (statusCode : Nat) (detail : String)
  deriving DecidableEq, Repr

/-- The static translation table `OBJECT_TO_PLANET_MAP` of `main.py`,
mapping reference-folder names to planet identifiers. -/
def OBJECT_TO_PLANET_MAP : List (String × String) :=
  [("stamp_1", "earth"),
   ("stamp_2", "mars"),
   ("stamp_3", "jupiter"),
   ("stamp_4", "saturn"),
   ("stamp_5", "neptune")]

/-- The model name configured at startup: `genai.GenerativeModel(...)`. -/
def geminiModelName : String := "gemini-1.5-pro-flash"

/-- Whether a file name is matched by `item_dir.glob("*.jpg")`: the name
ends with `.jpg` (checked on the character list). -/
def matchesJpgGlob (fileName : String) : Bool :=
  List.isSuffixOf ".jpg".data fileName.data

/-- The body of `for item_dir in reference_dir.iterdir():` in `lifespan`.
Faithful to the source indentation: only the image loading is guarded by
`if item_dir.is_dir():`; the `genai.configure` / `MODEL = ...` lines sit at
the loop-body level and run once per directory entry, subdirectory or not.
`Image.open` and the genai calls are modelled as succeeding (they are
external capabilities; the missing-directory failure is modelled in
`lifespanStartup`). -/
def lifespanLoop : List DirEntry → ServerState → ServerState
  | [], st => st
  | d :: rest, st =>
    let st1 :=
      if d.isDir then
        { st with referenceImages :=
            st.referenceImages ++ [(d.name, d.files.filter matchesJpgGlob)] }
      else st
    lifespanLoop rest { st1 with model := some geminiModelName }

/-- The initialization error recorded when `reference_dir.iterdir()` raises
because the reference directory is missing; the source formats it as the
exception type name in square brackets followed by the message. -/
def fileNotFoundMsg : String :=
  "[FileNotFoundError] [Errno 2] No such file or directory: " ++ "reference_images"

/-- The `lifespan` startup routine.  `refDirListing` is `none` when the
`reference_images` directory is missing (so `iterdir()` raises and the
`except` clause records `INITIALIZATION_ERROR`), and `some entries`
otherwise.  `REFERENCE_IMAGES = {}` runs first in both cases; `MODEL` and
`INITIALIZATION_ERROR` start as `None`. -/
def lifespanStartup (refDirListing : Option (List DirEntry)) : ServerState :=
  match refDirListing with
  | none =>
    { model := none, referenceImages := [], initializationError := some fileNotFoundMsg }
  | some entries =>
    lifespanLoop entries { model := none, referenceImages := [], initializationError := none }

/-- Python `s.split(',')` on the character list of `s`: a comma starts a
new field, any other character is prepended to the first field of the
split of the remainder (which is always nonempty). -/
def splitComma : List Char → List (List Char)
  | [] => [[]]
  | c :: cs =>
    let rest := splitComma cs
    if c = ',' then [] :: rest
    else (c :: rest.headD []) :: rest.tail

/-- `user_image_b64.split(',')[1]`: the second comma-separated field, or
`none` when indexing raises `IndexError` (fewer than two fields). -/
def extractB64 (cs : List Char) : Option (List Char) :=
  match splitComma cs with
  | _ :: p1 :: _ => some p1
  | _ => none

/-- ASCII whitespace, as matched by the regex class `\s` and stripped by
`str.strip()` (the Unicode-only whitespace characters are not modelled). -/
def isSpaceChar (c : Char) : Bool :=
  c = ' ' || c = '\t' || c = '\n' || c = '\x0d' || c = '\x0b' || c = '\x0c'

/-- Python `str.strip()`: drop whitespace from both ends. -/
def pyStrip (cs : List Char) : List Char :=
  ((cs.dropWhile isSpaceChar).reverse.dropWhile isSpaceChar).reverse

/-- Consume an exact literal at the head of the input, returning the rest;
`none` when the input does not start with the literal. -/
def expectLit : List Char → List Char → Option (List Char)
  | [], cs => some cs
  | _ :: _, [] => none
  | l :: ls, c :: cs => if c = l then expectLit ls cs else none

/-- Match the capture group `page_\d+_img_\d+\.jpg` at the head of the
input.  Returns the captured label and the remaining input.  The greedy
`\d+` needs no backtracking here: a digit is never `_` or `.`, so maximal
munch coincides with the regex semantics. -/
def parseLabel (cs : List Char) : Option (List Char × List Char) :=
  match expectLit "page_".data cs with
  | none => none
  | some r1 =>
    let d1 := r1.takeWhile Char.isDigit
    let r2 := r1.dropWhile Char.isDigit
    if d1.isEmpty then none
    else
      match expectLit "_img_".data r2 with
      | none => none
      | some r3 =>
        let d2 := r3.takeWhile Char.isDigit
        let r4 := r3.dropWhile Char.isDigit
        if d2.isEmpty then none
        else
          match expectLit ".jpg".data r4 with
          | none => none
          | some r5 =>
            some ("page_".data ++ d1 ++ "_img_".data ++ d2 ++ ".jpg".data, r5)

/-- Try the whole pattern `\[MATCH:\s*(page_\d+_img_\d+\.jpg)\]` at the
current position; `\s*` is greedy and needs no backtracking because no
whitespace character starts the label. -/
def matchAt (cs : List Char) : Option (List Char) :=
  match expectLit "[MATCH:".data cs with
  | none => none
  | some r1 =>
    match parseLabel (r1.dropWhile isSpaceChar) with
    | none => none
    | some (lbl, r3) =>
      match expectLit "]".data r3 with
      | none => none
      | some _ => some lbl

/-- `re.search(r"\[MATCH:\s*(page_\d+_img_\d+\.jpg)\]", text)`: try the
pattern at every position, left to right, returning the first capture. -/
def reSearch : List Char → Option (List Char)
  | [] => none
  | c :: cs =>
    match matchAt (c :: cs) with
    | some lbl => some lbl
    | none => reSearch cs

/-- The `prompt_parts` list: four instruction strings, the user image, then
for every catalog object a header line followed by all of its reference
images.  (Apostrophes in the source prompt text are written `\x27`.) -/
def buildPrompt (refs : List (String × List Image)) (userImg : Image) : List PromptPart :=
  [PromptPart.text "You are an object recognition expert. The first image is from a user. Following that are sets of reference images, each set belonging to a single object.",
   PromptPart.text "Your task is to identify which object set the user\x27s image belongs to.",
   PromptPart.text "**Important Instruction:** In all reference images, ignore the background, any tables, or surroundings. Focus ONLY on the primary object itself (e.g., the sculpture, the signboard) for matching.",
   PromptPart.text "Respond ONLY with the object\x27s name in the format `[MATCH: object_name]`. If no match, respond with `[NO_MATCH]`.",
   PromptPart.image userImg]
  ++ refs.foldr
      (fun p acc =>
        PromptPart.text ("--- Reference Object: " ++ p.1 ++ " ---") :: p.2.map PromptPart.image ++ acc)
      []

/-- The endpoint `recognize_stamp_object`, threading the process state to
make explicit that no branch writes to it.  Branches in source order:
1. `INITIALIZATION_ERROR` set → HTTP 500;
2. missing or falsy (empty) `image` field → HTTP 400;
3. `try:` block — `split(',')[1]` (an `IndexError` message when there is
   no comma), the decode/open oracle, the `MODEL` attribute access
   (`AttributeError` when `MODEL` is `None`; its message is modelled
   without the quotation marks of CPython), the model-call oracle, then
   the regex search on the response text: a capture yields
   `{"status": "success", "planet_id": <captured label, stripped>}` and
   no capture yields `{"status": "no_match"}`.  Every exception inside
   `try` becomes `HTTPException(500, str(e))`. -/
def recognizeFull (st : ServerState) (payload : Payload) (ext : Externals) :
    Resp × ServerState :=
  match st.initializationError with
  | some e => (Resp.err 500 ("서버 초기화 오류: " ++ e), st)
  | none =>
    match payload.image with
    | none => (Resp.err 400 "이미지 데이터가 없습니다.", st)
    | some img =>
      if img = "" then (Resp.err 400 "이미지 데이터가 없습니다.", st)
      else
        match extractB64 img.data with
        | none => (Resp.err 500 "list index out of range", st)
        | some b64part =>
          match ext.decodeImage (String.mk b64part) with
          | Except.error e => (Resp.err 500 e, st)
          | Except.ok userImg =>
            match st.model with
            | none =>
              (Resp.err 500 "NoneType object has no attribute generate_content_async", st)
            | some _ =>
              match ext.generate (buildPrompt st.referenceImages userImg) with
              | Except.error e => (Resp.err 500 e, st)
              | Except.ok text =>
                match reSearch text.data with
                | some lbl => (Resp.ok (RespBody.success (String.mk (pyStrip lbl))), st)
                | none => (Resp.ok RespBody.noMatch, st)

/-- The response of the endpoint. -/
def recognize (st : ServerState) (payload : Payload) (ext : Externals) : Resp :=
  (recognizeFull st payload ext).1

/-- Modelled from the spec: a `ReferenceEntry` of the embedding-based
Query Matcher (spec section 4.2), which is absent from `src/` (`main.py`
holds the prompt-based variant). -/
structure RefEntry where
  object_id : String
  vector : List ℚ
  deriving DecidableEq, Repr

/-- Modelled from the spec: the outcome of `match(queryImage)`. -/
inductive MatchOutcome where
  | matched (object_id : String) (score : ℚ)
  | noMatch
  deriving DecidableEq, Repr

/-- Modelled from the spec: the fixed acceptance threshold 0.7. -/
def threshold : ℚ := 7 / 10

/-- Modelled from the spec: select the scored entry with the strictly
greatest score, ties broken in favour of the first-encountered entry. -/
def bestEntry : List (String × ℚ) → Option (String × ℚ)
  | [] => none
  | p :: rest =>
    match bestEntry rest with
    | none => some p
    | some b => if b.2 > p.2 then some b else some p

/-- Modelled from the spec: the Query Matcher of section 4.2, absent from
`src/`.  It scores the query against every catalog entry with the
similarity function `sim` (the cosine similarity of the embeddings; the
embedding capability and the floating-point cosine computation are
abstracted into `sim`), selects the strictly greatest score with ties to
the first-encountered entry, and accepts only when the best score exceeds
the 0.7 threshold. -/
def matchQuery (sim : List ℚ → List ℚ → ℚ) (catalog : List RefEntry) (q : List ℚ) :
    MatchOutcome :=
  match bestEntry (catalog.map fun e => (e.object_id, sim q e.vector)) with
  | none => MatchOutcome.noMatch
  | some (oid, s) =>
    if s > threshold then MatchOutcome.matched oid s else MatchOutcome.noMatch

/-- A concrete externals oracle whose decode succeeds and whose model call
returns the given response text; used by concrete witnesses. -/
def extOracle (txt : String) : Externals :=
  { decodeImage := fun _ => Except.ok "user-image", generate := fun _ => Except.ok txt }

/-- A concrete externals oracle whose decode step fails. -/
def extDecodeFail : Externals :=
  { decodeImage := fun _ => Except.error "cannot identify image file",
    generate := fun _ => Except.ok "[NO_MATCH]" }

/-! ## Helper lemmas -/

theorem bestEntry_ne_none (p : String × ℚ) (rest : List (String × ℚ)) :
    bestEntry (p :: rest) ≠ none := by
  unfold bestEntry
  cases bestEntry rest with
  | none => simp
  | some b => dsimp; split <;> simp

/-- `bestEntry` returns exactly the first entry achieving the strict
maximum score: its score bounds every score, and every earlier entry
scores strictly less. -/
theorem bestEntry_eq_some_iff (l : List (String × ℚ)) (oid : String) (s : ℚ) :
    bestEntry l = some (oid, s) ↔
      ∃ i, ∃ hi : i < l.length,
        l[i] = (oid, s) ∧
        (∀ j, ∀ hj : j < l.length, (l[j]).2 ≤ s) ∧
        (∀ j, ∀ hj : j < i, (l[j]).2 < s) := by
  induction l generalizing oid s with
  | nil => simp [bestEntry]
  | cons p rest ih =>
    unfold bestEntry
    cases hb : bestEntry rest with
    | none =>
      have hrest : rest = [] := by
        cases rest with
        | nil => rfl
        | cons q t => exact absurd hb (bestEntry_ne_none q t)
      subst hrest
      constructor
      · intro h
        have hp : p = (oid, s) := by simpa using h
        refine ⟨0, by simp, by simpa using hp, ?_, ?_⟩
        · intro j hj
          have hj0 : j = 0 := by simpa using hj
          subst hj0
          simp [hp]
        · intro j hj; omega
      · rintro ⟨i, hi, hget, hle, hlt⟩
        have hi0 : i = 0 := by simpa using hi
        subst hi0
        simpa using congrArg some hget
    | some b =>
      dsimp
      by_cases htb : b.2 > p.2
      · rw [if_pos htb]
        constructor
        · intro h
          have hbs : b = (oid, s) := by simpa using h
          have hs2 : b.2 = s := by rw [hbs]
          obtain ⟨i, hi, hget, hle, hlt⟩ :=
            (ih oid s).mp (hb.trans (congrArg some hbs))
          refine ⟨i + 1, by simpa using Nat.succ_lt_succ hi, by simpa using hget, ?_, ?_⟩
          · intro j hj
            cases j with
            | zero =>
              have : p.2 < s := hs2 ▸ htb
              simpa using le_of_lt this
            | succ k =>
              have hk : k < rest.length := by simpa using hj
              simpa using hle k hk
          · intro j hj
            cases j with
            | zero => simpa using hs2 ▸ htb
            | succ k =>
              have hk : k < i := by omega
              simpa using hlt k hk
        · rintro ⟨i, hi, hget, hle, hlt⟩
          obtain ⟨ib, hib, hgetb, hleb, hltb⟩ := (ih b.1 b.2).mp (by simpa using hb)
          cases i with
          | zero =>
            have hps : p = (oid, s) := by simpa using hget
            have hs : p.2 = s := by rw [hps]
            have hble : b.2 ≤ s := by
              have := hle (ib + 1) (by simpa using Nat.succ_lt_succ hib)
              simpa [hgetb] using this
            have hcon : p.2 < s := lt_of_lt_of_le htb hble
            exact absurd (hs ▸ hcon) (lt_irrefl s)
          | succ k =>
            have hk : k < rest.length := by simpa using hi
            have hgetr : rest[k] = (oid, s) := by simpa using hget
            have hler : ∀ j, ∀ hj : j < rest.length, (rest[j]).2 ≤ s := by
              intro j hj
              have := hle (j + 1) (by simpa using Nat.succ_lt_succ hj)
              simpa using this
            have hltr : ∀ j, ∀ hj : j < k, (rest[j]).2 < s := by
              intro j hj
              have := hlt (j + 1) (by omega)
              simpa using this
            have hbr : bestEntry rest = some (oid, s) :=
              (ih oid s).mpr ⟨k, hk, hgetr, hler, hltr⟩
            rw [hb] at hbr
            simpa using hbr
      · rw [if_neg htb]
        push_neg at htb
        constructor
        · intro h
          have hps : p = (oid, s) := by simpa using h
          have hs : p.2 = s := by rw [hps]
          obtain ⟨ib, hib, hgetb, hleb, hltb⟩ := (ih b.1 b.2).mp (by simpa using hb)
          refine ⟨0, by simp, by simpa using hps, ?_, ?_⟩
          · intro j hj
            cases j with
            | zero => simp [hps]
            | succ k =>
              have hk : k < rest.length := by simpa using hj
              have h1 : (rest[k]).2 ≤ b.2 := hleb k hk
              calc ((p :: rest)[k + 1]).2 = (rest[k]).2 := by simp
                _ ≤ b.2 := h1
                _ ≤ p.2 := htb
                _ = s := hs
          · intro j hj; omega
        · rintro ⟨i, hi, hget, hle, hlt⟩
          cases i with
          | zero => simpa using congrArg some hget
          | succ k =>
            have hk : k < rest.length := by simpa using hi
            have hgetr : rest[k] = (oid, s) := by simpa using hget
            have hler : ∀ j, ∀ hj : j < rest.length, (rest[j]).2 ≤ s := by
              intro j hj
              have := hle (j + 1) (by simpa using Nat.succ_lt_succ hj)
              simpa using this
            have hltr : ∀ j, ∀ hj : j < k, (rest[j]).2 < s := by
              intro j hj
              have := hlt (j + 1) (by omega)
              simpa using this
            have hbr : bestEntry rest = some (oid, s) :=
              (ih oid s).mpr ⟨k, hk, hgetr, hler, hltr⟩
            rw [hb] at hbr
            have hbs : b = (oid, s) := by simpa using hbr
            have hs2 : b.2 = s := by rw [hbs]
            have hp0 : p.2 < s := by simpa using hlt 0 (by omega)
            have hsle : s ≤ p.2 := hs2 ▸ htb
            exact absurd (lt_of_lt_of_le hp0 hsle) (lt_irrefl _)

/-- Transfer of `bestEntry_eq_some_iff` through the scoring `map`. -/
theorem scored_bestEntry_iff (sim : List ℚ → List ℚ → ℚ) (catalog : List RefEntry)
    (q : List ℚ) (oid : String) (s : ℚ) :
    bestEntry (catalog.map fun e => (e.object_id, sim q e.vector)) = some (oid, s) ↔
      ∃ i, ∃ hi : i < catalog.length,
        (catalog[i]).object_id = oid ∧ sim q (catalog[i]).vector = s ∧
        (∀ j, ∀ hj : j < catalog.length, sim q (catalog[j]).vector ≤ s) ∧
        (∀ j, ∀ hj : j < i, sim q (catalog[j]).vector < s) := by
  rw [bestEntry_eq_some_iff]
  constructor
  · rintro ⟨i, hi, hget, hle, hlt⟩
    rw [List.length_map] at hi
    rw [List.getElem_map] at hget
    have h1 : (catalog[i]).object_id = oid := congrArg Prod.fst hget
    have h2 : sim q (catalog[i]).vector = s := congrArg Prod.snd hget
    refine ⟨i, hi, h1, h2, ?_, ?_⟩
    · intro j hj
      have := hle j (by rw [List.length_map]; exact hj)
      rwa [List.getElem_map] at this
    · intro j hj
      have := hlt j hj
      rwa [List.getElem_map] at this
  · rintro ⟨i, hi, h1, h2, hle, hlt⟩
    refine ⟨i, by rw [List.length_map]; exact hi, ?_, ?_, ?_⟩
    · rw [List.getElem_map]
      exact Prod.ext h1 h2
    · intro j hj
      rw [List.getElem_map]
      exact hle j (by rw [List.length_map] at hj; exact hj)
    · intro j hj
      rw [List.getElem_map]
      exact hlt j hj

/-- Full characterisation of a reported match. -/
theorem matchQuery_matched_iff (sim : List ℚ → List ℚ → ℚ) (catalog : List RefEntry)
    (q : List ℚ) (oid : String) (s : ℚ) :
    matchQuery sim catalog q = MatchOutcome.matched oid s ↔
      (threshold < s ∧ ∃ i, ∃ hi : i < catalog.length,
        (catalog[i]).object_id = oid ∧ sim q (catalog[i]).vector = s ∧
        (∀ j, ∀ hj : j < catalog.length, sim q (catalog[j]).vector ≤ s) ∧
        (∀ j, ∀ hj : j < i, sim q (catalog[j]).vector < s)) := by
  unfold matchQuery
  cases hbe : bestEntry (catalog.map fun e => (e.object_id, sim q e.vector)) with
  | none =>
    have hnil : catalog = [] := by
      cases catalog with
      | nil => rfl
      | cons e es =>
        rw [List.map_cons] at hbe
        exact absurd hbe (bestEntry_ne_none _ _)
    subst hnil
    simp
  | some b =>
    obtain ⟨boid, bs⟩ := b
    dsimp only
    by_cases hth : bs > threshold
    · rw [if_pos hth]
      constructor
      · intro h
        have h1 : boid = oid := by injection h
        have h2 : bs = s := by injection h
        subst h1; subst h2
        obtain ⟨i, hi, hh⟩ := (scored_bestEntry_iff sim catalog q boid bs).mp hbe
        exact ⟨hth, i, hi, hh⟩
      · rintro ⟨hth2, hch⟩
        have heq := (scored_bestEntry_iff sim catalog q oid s).mpr hch
        rw [hbe] at heq
        have hv : (boid, bs) = (oid, s) := by injection heq
        have h1 : boid = oid := congrArg Prod.fst hv
        have h2 : bs = s := congrArg Prod.snd hv
        rw [h1, h2]
    · rw [if_neg hth]
      constructor
      · intro h; exact absurd h (by simp)
      · rintro ⟨hth2, hch⟩
        have heq := (scored_bestEntry_iff sim catalog q oid s).mpr hch
        rw [hbe] at heq
        have hv : (boid, bs) = (oid, s) := by injection heq
        have h2 : bs = s := congrArg Prod.snd hv
        exact absurd (h2 ▸ hth2) hth

theorem splitComma_no_comma (cs : List Char) (h : ',' ∉ cs) : splitComma cs = [cs] := by
  induction cs with
  | nil => rfl
  | cons c rest ih =>
    have hc : ¬ c = ',' := fun hch => h (by simp [hch])
    have hrest : ',' ∉ rest := fun hm => h (List.mem_cons_of_mem c hm)
    simp [splitComma, hc, ih hrest]

theorem splitComma_append (p r : List Char) (hp : ',' ∉ p) :
    splitComma (p ++ ',' :: r) = p :: splitComma r := by
  induction p with
  | nil => simp [splitComma]
  | cons c rest ih =>
    have hc : ¬ c = ',' := fun hch => hp (by simp [hch])
    have hrest : ',' ∉ rest := fun hm => hp (List.mem_cons_of_mem c hm)
    rw [List.cons_append]
    simp [splitComma, hc, ih hrest]

theorem extractB64_no_comma (cs : List Char) (h : ',' ∉ cs) : extractB64 cs = none := by
  unfold extractB64
  rw [splitComma_no_comma cs h]

theorem extractB64_data_url (p r : List Char) (hp : ',' ∉ p) (hr : ',' ∉ r) :
    extractB64 (p ++ ',' :: r) = some r := by
  unfold extractB64
  rw [splitComma_append p r hp, splitComma_no_comma r hr]

theorem lifespanLoop_model (entries : List DirEntry) (st : ServerState) :
    (lifespanLoop entries st).model =
      if entries.isEmpty then st.model else some geminiModelName := by
  induction entries generalizing st with
  | nil => rfl
  | cons d rest ih =>
    unfold lifespanLoop
    rw [ih]
    by_cases hd : d.isDir <;> simp [hd]

theorem lifespanLoop_initError (entries : List DirEntry) (st : ServerState) :
    (lifespanLoop entries st).initializationError = st.initializationError := by
  induction entries generalizing st with
  | nil => rfl
  | cons d rest ih =>
    unfold lifespanLoop
    rw [ih]
    by_cases hd : d.isDir <;> simp [hd]

theorem lifespanLoop_refs (entries : List DirEntry) (st : ServerState) :
    (lifespanLoop entries st).referenceImages =
      st.referenceImages ++
        (entries.filter fun d => d.isDir).map
          (fun d => (d.name, d.files.filter matchesJpgGlob)) := by
  induction entries generalizing st with
  | nil => simp [lifespanLoop]
  | cons d rest ih =>
    unfold lifespanLoop
    rw [ih]
    by_cases hd : d.isDir <;> simp [hd, List.filter_cons]

theorem mem_buildPrompt_image (refs : List (String × List Image)) (u : Image)
    (name : String) (imgs : List Image) (img : Image)
    (hmem : (name, imgs) ∈ refs) (himg : img ∈ imgs) :
    PromptPart.image img ∈ buildPrompt refs u := by
  unfold buildPrompt
  rw [List.mem_append]
  right
  induction hmem with
  | head rest =>
    rw [List.foldr_cons]
    exact List.mem_cons_of_mem _
      (List.mem_append_left _ (List.mem_map_of_mem PromptPart.image himg))
  | tail b hmem2 ih =>
    rw [List.foldr_cons]
    exact List.mem_cons_of_mem _ (List.mem_append_right _ ih)

theorem recognizeFull_state (st : ServerState) (payload : Payload) (ext : Externals) :
    (recognizeFull st payload ext).2 = st := by
  unfold recognizeFull
  repeat' split
  all_goals rfl

theorem parseLabel_shape (cs lbl r : List Char) (h : parseLabel cs = some (lbl, r)) :
    ∃ d1 d2 : List Char, d1 ≠ [] ∧ d2 ≠ [] ∧
      (∀ c ∈ d1, c.isDigit = true) ∧ (∀ c ∈ d2, c.isDigit = true) ∧
      lbl = "page_".data ++ d1 ++ "_img_".data ++ d2 ++ ".jpg".data := by
  unfold parseLabel at h
  cases h1 : expectLit "page_".data cs with
  | none => rw [h1] at h; cases h
  | some r1 =>
    rw [h1] at h
    dsimp only at h
    by_cases hd1 : (r1.takeWhile Char.isDigit).isEmpty
    · rw [if_pos hd1] at h; cases h
    · rw [if_neg hd1] at h
      cases h2 : expectLit "_img_".data (r1.dropWhile Char.isDigit) with
      | none => rw [h2] at h; cases h
      | some r3 =>
        rw [h2] at h
        dsimp only at h
        by_cases hd2 : (r3.takeWhile Char.isDigit).isEmpty
        · rw [if_pos hd2] at h; cases h
        · rw [if_neg hd2] at h
          cases h3 : expectLit ".jpg".data (r3.dropWhile Char.isDigit) with
          | none => rw [h3] at h; cases h
          | some r5 =>
            rw [h3] at h
            have hlbl : "page_".data ++ r1.takeWhile Char.isDigit ++ "_img_".data ++
                r3.takeWhile Char.isDigit ++ ".jpg".data = lbl := by
              injection h with hpair
              exact congrArg Prod.fst hpair
            refine ⟨r1.takeWhile Char.isDigit, r3.takeWhile Char.isDigit, ?_, ?_, ?_, ?_, ?_⟩
            · intro hnil; rw [hnil] at hd1; exact hd1 rfl
            · intro hnil; rw [hnil] at hd2; exact hd2 rfl
            · intro c hcm; exact List.mem_takeWhile_imp hcm
            · intro c hcm; exact List.mem_takeWhile_imp hcm
            · exact hlbl.symm

theorem matchAt_shape (cs lbl : List Char) (h : matchAt cs = some lbl) :
    ∃ d1 d2 : List Char, d1 ≠ [] ∧ d2 ≠ [] ∧
      (∀ c ∈ d1, c.isDigit = true) ∧ (∀ c ∈ d2, c.isDigit = true) ∧
      lbl = "page_".data ++ d1 ++ "_img_".data ++ d2 ++ ".jpg".data := by
  unfold matchAt at h
  cases h1 : expectLit "[MATCH:".data cs with
  | none => rw [h1] at h; cases h
  | some r1 =>
    rw [h1] at h
    dsimp only at h
    cases h2 : parseLabel (r1.dropWhile isSpaceChar) with
    | none => rw [h2] at h; cases h
    | some pr =>
      obtain ⟨l, r3⟩ := pr
      rw [h2] at h
      dsimp only at h
      cases h3 : expectLit "]".data r3 with
      | none => rw [h3] at h; cases h
      | some r4 =>
        rw [h3] at h
        dsimp only at h
        have : l = lbl := by injection h
        exact this ▸ parseLabel_shape _ l r3 h2

theorem reSearch_shape (cs lbl : List Char) (h : reSearch cs = some lbl) :
    ∃ d1 d2 : List Char, d1 ≠ [] ∧ d2 ≠ [] ∧
      (∀ c ∈ d1, c.isDigit = true) ∧ (∀ c ∈ d2, c.isDigit = true) ∧
      lbl = "page_".data ++ d1 ++ "_img_".data ++ d2 ++ ".jpg".data := by
  induction cs with
  | nil => cases h
  | cons c rest ih =>
    unfold reSearch at h
    cases hm : matchAt (c :: rest) with
    | some l =>
      rw [hm] at h
      have : l = lbl := by injection h
      exact this ▸ matchAt_shape _ l hm
    | none =>
      rw [hm] at h
      exact ih h

theorem pyStrip_of_ends (a b : Char) (mid : List Char)
    (ha : isSpaceChar a = false) (hb : isSpaceChar b = false) :
    pyStrip (a :: (mid ++ [b])) = a :: (mid ++ [b]) := by
  simp [pyStrip, ha, hb]

/-- Only the branch `if match:` of the handler produces a success body, and
its `planet_id` is the stripped regex capture from the model response. -/
theorem recognize_success_label (st : ServerState) (payload : Payload) (ext : Externals)
    (pid : String) (h : recognize st payload ext = Resp.ok (RespBody.success pid)) :
    ∃ lbl txt : List Char, reSearch txt = some lbl ∧ pid = String.mk (pyStrip lbl) := by
  unfold recognize recognizeFull at h
  cases hie : st.initializationError with
  | some e => rw [hie] at h; simp at h
  | none =>
    rw [hie] at h
    dsimp only at h
    cases hpi : payload.image with
    | none => rw [hpi] at h; simp at h
    | some img =>
      rw [hpi] at h
      dsimp only at h
      by_cases hi : img = ""
      · rw [if_pos hi] at h; simp at h
      · rw [if_neg hi] at h
        cases hx : extractB64 img.data with
        | none => rw [hx] at h; simp at h
        | some b =>
          rw [hx] at h
          dsimp only at h
          cases hd : ext.decodeImage (String.mk b) with
          | error e => rw [hd] at h; simp at h
          | ok u =>
            rw [hd] at h
            dsimp only at h
            cases hsm : st.model with
            | none => rw [hsm] at h; simp at h
            | some m =>
              rw [hsm] at h
              dsimp only at h
              cases hg : ext.generate (buildPrompt st.referenceImages u) with
              | error e => rw [hg] at h; simp at h
              | ok txt =>
                rw [hg] at h
                dsimp only at h
                cases hr : reSearch txt.data with
                | none => rw [hr] at h; simp at h
                | some lbl =>
                  rw [hr] at h
                  dsimp only at h
                  refine ⟨lbl, txt.data, hr, ?_⟩
                  injection h with hbody
                  injection hbody with hpid
                  exact hpid.symm

/-! ## Claims -/

/-- Claim C2: for every loaded catalog and query, the Query Matcher scores
the query against every catalog entry, reports `matched oid s` exactly when
`s` exceeds the 0.7 threshold and is attained at some entry whose score
bounds every other score, with all earlier entries scoring strictly less
(ties broken by first-encountered order); otherwise it reports no-match. -/
theorem query_matcher_strict_max_and_threshold (sim : List ℚ → List ℚ → ℚ)
    (catalog : List RefEntry) (q : List ℚ) :
    (∀ oid s, matchQuery sim catalog q = MatchOutcome.matched oid s ↔
      (threshold < s ∧ ∃ i, ∃ hi : i < catalog.length,
        (catalog[i]).object_id = oid ∧ sim q (catalog[i]).vector = s ∧
        (∀ j, ∀ hj : j < catalog.length, sim q (catalog[j]).vector ≤ s) ∧
        (∀ j, ∀ hj : j < i, sim q (catalog[j]).vector < s))) ∧
    (matchQuery sim catalog q = MatchOutcome.noMatch ↔
      ¬ ∃ oid s, (threshold < s ∧ ∃ i, ∃ hi : i < catalog.length,
        (catalog[i]).object_id = oid ∧ sim q (catalog[i]).vector = s ∧
        (∀ j, ∀ hj : j < catalog.length, sim q (catalog[j]).vector ≤ s) ∧
        (∀ j, ∀ hj : j < i, sim q (catalog[j]).vector < s))) := by
  refine ⟨matchQuery_matched_iff sim catalog q, ?_⟩
  constructor
  · rintro hnm ⟨oid, s, hch⟩
    have := (matchQuery_matched_iff sim catalog q oid s).mpr hch
    rw [hnm] at this
    exact absurd this (by simp)
  · intro hno
    cases hq : matchQuery sim catalog q with
    | noMatch => rfl
    | matched oid s =>
      exact absurd ⟨oid, s, (matchQuery_matched_iff sim catalog q oid s).mp hq⟩ hno

/-- Claim C2 witness: on the concrete catalog `[("stamp_1", [1]) , ("stamp_9", [1])]`
with a constant similarity of 1, the matcher characterisation instantiates. -/
theorem query_matcher_strict_max_and_threshold_witness :
    matchQuery (fun _ _ => 1) [⟨"stamp_1", [1]⟩, ⟨"stamp_9", [0]⟩] [1] =
      MatchOutcome.matched "stamp_1" 1 :=
  ((query_matcher_strict_max_and_threshold (fun _ _ => 1)
      [⟨"stamp_1", [1]⟩, ⟨"stamp_9", [0]⟩] [1]).1 "stamp_1" 1).mpr
    ⟨by norm_num [threshold],
     0, by norm_num, rfl, rfl,
     by
       intro j hj
       have hj2 : j < 2 := by simpa using hj
       interval_cases j <;> norm_num,
     by intro j hj; omega⟩

/-- Claim C6: if the reference catalog is empty, the matcher returns the
no-match outcome, whatever the similarity function and the query. -/
theorem empty_catalog_always_no_match (sim : List ℚ → List ℚ → ℚ) (q : List ℚ) :
    matchQuery sim [] q = MatchOutcome.noMatch := rfl

/-- Claim C9: handling any request, well-formed or not, leaves the
process-wide state (reference catalog, model handle, initialization-error
flag) exactly as it was. -/
theorem request_handling_preserves_state (st : ServerState) (payload : Payload)
    (ext : Externals) :
    (recognizeFull st payload ext).2 = st ∧
    (recognizeFull st payload ext).2.referenceImages = st.referenceImages ∧
    (recognizeFull st payload ext).2.model = st.model ∧
    (recognizeFull st payload ext).2.initializationError = st.initializationError := by
  have h := recognizeFull_state st payload ext
  exact ⟨h, by rw [h], by rw [h], by rw [h]⟩

/-- Claim C4: a failed initialization (for example, a missing reference
directory) is recorded in the error flag rather than crashing, and once the
flag is set every request answers the fatal-init 500 response, independent
of the payload and of the external oracles — no match is attempted. -/
theorem init_error_gates_every_request :
    ((lifespanStartup none).initializationError = some fileNotFoundMsg ∧
     (lifespanStartup none).model = none ∧
     (lifespanStartup none).referenceImages = []) ∧
    (∀ st : ServerState, ∀ e : String, ∀ payload : Payload, ∀ ext : Externals,
      st.initializationError = some e →
      recognize st payload ext = Resp.err 500 ("서버 초기화 오류: " ++ e)) ∧
    (∀ st : ServerState, ∀ e : String, ∀ payload : Payload, ∀ ext ext2 : Externals,
      st.initializationError = some e →
      recognize st payload ext = recognize st payload ext2) := by
  refine ⟨⟨rfl, rfl, rfl⟩, ?_, ?_⟩
  · intro st e payload ext h
    unfold recognize recognizeFull
    rw [h]
  · intro st e payload ext ext2 h
    unfold recognize recognizeFull
    rw [h]

/-- Claim C4 witness: a state whose error flag is set answers the
fatal-init 500 on a concrete request. -/
theorem init_error_gates_every_request_witness :
    recognize { model := none, referenceImages := [], initializationError := some "boom" }
      { image := some "x" } (extOracle "[NO_MATCH]")
      = Resp.err 500 ("서버 초기화 오류: " ++ "boom") :=
  init_error_gates_every_request.2.1 _ "boom" _ _ rfl

/-- Claim C1 (code-bug evidence): on a successful regex match the handler
returns the captured label itself as `planet_id` and never consults
`OBJECT_TO_PLANET_MAP`; here the matched label has no entry in the map,
yet the response is a success — the spec requires the distinct
"matched but unmapped" no-match outcome instead. -/
theorem success_response_ignores_planet_map :
    recognize
      { model := some geminiModelName,
        referenceImages := [("stamp_1", ["one.jpg"])],
        initializationError := none }
      { image := some "data:image/jpeg;base64,AAAA" }
      (extOracle "[MATCH: page_3_img_1.jpg]")
      = Resp.ok (RespBody.success "page_3_img_1.jpg") ∧
    OBJECT_TO_PLANET_MAP.lookup "page_3_img_1.jpg" = none := by
  constructor
  · rfl
  · rfl

/-- Claim C3 counterexample: a malformed image payload (not base64 of any
image, and without a comma) is answered with a 500 server error — the
`IndexError` of `split(',')[1]` lands in the generic exception handler —
not with the 400 client error the claim requires. -/
theorem malformed_image_yields_500_counterexample :
    recognize
      { model := some geminiModelName, referenceImages := [],
        initializationError := none }
      { image := some "!!!" } (extOracle "[NO_MATCH]")
      = Resp.err 500 "list index out of range" ∧ (500 : Nat) ≠ 400 := by
  exact ⟨rfl, by decide⟩

/-- Claim C3 (amended): a missing or empty image field is rejected with a
400 client error; but a malformed image payload is not a 400 — a string
with no comma raises `IndexError` and an undecodable payload raises in the
decode step, and both surface as 500 responses from the generic exception
handler, indistinguishable by status code from a backend failure. -/
theorem invalid_input_vs_server_error_amended (st : ServerState) (ext : Externals)
    (h : st.initializationError = none) :
    (recognize st { image := none } ext = Resp.err 400 "이미지 데이터가 없습니다.") ∧
    (recognize st { image := some "" } ext = Resp.err 400 "이미지 데이터가 없습니다.") ∧
    (∀ img : String, img ≠ "" → ',' ∉ img.data →
      recognize st { image := some img } ext = Resp.err 500 "list index out of range") ∧
    (∀ img : String, ∀ b64 : List Char, ∀ e : String, img ≠ "" →
      extractB64 img.data = some b64 →
      ext.decodeImage (String.mk b64) = Except.error e →
      recognize st { image := some img } ext = Resp.err 500 e) := by
  refine ⟨?_, ?_, ?_, ?_⟩
  · unfold recognize recognizeFull
    rw [h]
  · unfold recognize recognizeFull
    rw [h]
    dsimp only
    rw [if_pos rfl]
  · intro img hne hnc
    unfold recognize recognizeFull
    rw [h]
    dsimp only
    rw [if_neg hne, extractB64_no_comma img.data hnc]
  · intro img b64 e hne hx hdec
    unfold recognize recognizeFull
    rw [h]
    dsimp only
    rw [if_neg hne, hx]
    dsimp only
    rw [hdec]

/-- Claim C3 witness: the 400 path and the no-comma 500 path instantiate on
a concrete healthy state. -/
theorem invalid_input_vs_server_error_amended_witness :
    recognize
      { model := some geminiModelName, referenceImages := [],
        initializationError := none }
      { image := none } (extOracle "[NO_MATCH]")
      = Resp.err 400 "이미지 데이터가 없습니다." ∧
    recognize
      { model := some geminiModelName, referenceImages := [],
        initializationError := none }
      { image := some "AAAA" } (extOracle "[NO_MATCH]")
      = Resp.err 500 "list index out of range" :=
  ⟨(invalid_input_vs_server_error_amended _ (extOracle "[NO_MATCH]") rfl).1,
   (invalid_input_vs_server_error_amended _ (extOracle "[NO_MATCH]") rfl).2.2.1
     "AAAA" (by decide) (by decide)⟩

/-- Claim C5 counterexample: a plain base64 image string without any
data-URL prefix is not accepted or decoded: `split(',')[1]` has no second
field, the `IndexError` is caught, and the request fails with a 500. -/
theorem plain_base64_rejected_counterexample :
    extractB64 "QUFBQQ==".data = none ∧
    recognize
      { model := some geminiModelName, referenceImages := [],
        initializationError := none }
      { image := some "QUFBQQ==" } (extOracle "[NO_MATCH]")
      = Resp.err 500 "list index out of range" := by
  exact ⟨rfl, rfl⟩

/-- Claim C5 (amended): when the image string contains a comma — as a
data-URL prefix does — exactly the text between the first and second comma
(the full remainder when no second comma exists) is handed to the base64
decoder, so a data-URL prefix is stripped; but a plain base64 string
without any comma is not accepted: the indexing raises and the handler
answers 500 instead of decoding it. -/
theorem data_url_split_amended :
    (∀ pre rest : List Char, ',' ∉ pre → ',' ∉ rest →
      extractB64 (pre ++ ',' :: rest) = some rest) ∧
    (∀ cs : List Char, ',' ∉ cs → extractB64 cs = none) ∧
    (∀ st : ServerState, ∀ ext : Externals, ∀ img : String,
      st.initializationError = none → img ≠ "" → ',' ∉ img.data →
      recognize st { image := some img } ext = Resp.err 500 "list index out of range") := by
  refine ⟨extractB64_data_url, extractB64_no_comma, ?_⟩
  intro st ext img h hne hnc
  unfold recognize recognizeFull
  rw [h]
  dsimp only
  rw [if_neg hne, extractB64_no_comma img.data hnc]

/-- Claim C5 witness: the part after the data-URL prefix is exactly what
gets decoded, on concrete character lists. -/
theorem data_url_split_amended_witness :
    extractB64 ("data:image/png;base64".data ++ ',' :: "QUFB".data) = some "QUFB".data :=
  data_url_split_amended.1 "data:image/png;base64".data "QUFB".data
    (by decide) (by decide)

/-- Claim C10 counterexample: a reference directory containing one plain
file and no subdirectory still configures the model — the `genai` calls sit
in the per-entry loop, not under the `is_dir` guard — refuting that the
model stays unconfigured whenever there is no subdirectory. -/
theorem file_only_listing_configures_model_counterexample :
    (lifespanStartup (some [{ name := "readme.txt", isDir := false, files := [] }])).model
      = some geminiModelName ∧
    (lifespanStartup (some [{ name := "readme.txt", isDir := false, files := [] }])).initializationError
      = none ∧
    (lifespanStartup (some [{ name := "readme.txt", isDir := false, files := [] }])).referenceImages
      = [] ∧
    some geminiModelName ≠ (none : Option String) := by
  exact ⟨rfl, rfl, rfl, by decide⟩

/-- Claim C10 (amended): if the reference directory exists but has no
entries at all, startup records no initialization error and never
configures the model, so a request that reaches the model call bypasses
the fatal-init path and fails inside the generic per-request exception
handler with a 500 (the attribute error on the `None` model); and model
configuration happens inside the per-entry loop — once per directory
entry, subdirectory or not — rather than once after loading. -/
theorem empty_reference_dir_amended :
    ((lifespanStartup (some [])).initializationError = none ∧
     (lifespanStartup (some [])).model = none) ∧
    (∀ ext : Externals, ∀ img : String, ∀ b64 : List Char, ∀ u : Image,
      img ≠ "" → extractB64 img.data = some b64 →
      ext.decodeImage (String.mk b64) = Except.ok u →
      recognize (lifespanStartup (some [])) { image := some img } ext
        = Resp.err 500 "NoneType object has no attribute generate_content_async") ∧
    (∀ entries : List DirEntry, entries ≠ [] →
      (lifespanStartup (some entries)).model = some geminiModelName) := by
  refine ⟨⟨rfl, rfl⟩, ?_, ?_⟩
  · intro ext img b64 u hne hx hdec
    unfold lifespanStartup lifespanLoop recognize recognizeFull
    dsimp only
    rw [if_neg hne, hx]
    dsimp only
    rw [hdec]
  · intro entries hne
    cases entries with
    | nil => exact absurd rfl hne
    | cons d rest =>
      unfold lifespanStartup
      rw [lifespanLoop_model]
      simp

/-- Claim C10 witness: with an empty reference directory, a concrete
well-formed request fails with the generic 500, not the fatal-init 500. -/
theorem empty_reference_dir_amended_witness :
    recognize (lifespanStartup (some [])) { image := some "data:x,QUFB" }
      (extOracle "[NO_MATCH]")
      = Resp.err 500 "NoneType object has no attribute generate_content_async" ∧
    (lifespanStartup (some [{ name := "a", isDir := false, files := [] }])).model
      = some geminiModelName :=
  ⟨empty_reference_dir_amended.2.1 (extOracle "[NO_MATCH]") "data:x,QUFB"
      "QUFB".data "user-image" (by decide) (by decide) rfl,
   empty_reference_dir_amended.2.2 [{ name := "a", isDir := false, files := [] }]
      (by decide)⟩

/-- Claim C7: loading produces, for each subdirectory of the reference
root, one catalog row keyed by the directory name holding one entry per
contained `*.jpg` file; several reference images of one object each stay
separate entries, and every loaded image is included in the prompt used
for matching. -/
theorem catalog_load_one_entry_per_jpg (entries : List DirEntry) :
    ((lifespanStartup (some entries)).referenceImages =
      (entries.filter fun d => d.isDir).map
        (fun d => (d.name, d.files.filter matchesJpgGlob))) ∧
    ((lifespanStartup (some entries)).initializationError = none) ∧
    (∀ name : String, ∀ imgs : List Image, ∀ img : Image, ∀ u : Image,
      (name, imgs) ∈ (lifespanStartup (some entries)).referenceImages →
      img ∈ imgs →
      PromptPart.image img ∈ buildPrompt (lifespanStartup (some entries)).referenceImages u) := by
  refine ⟨?_, ?_, ?_⟩
  · unfold lifespanStartup
    rw [lifespanLoop_refs]
    simp
  · unfold lifespanStartup
    rw [lifespanLoop_initError]
  · intro name imgs img u hmem himg
    exact mem_buildPrompt_image _ u name imgs img hmem himg

/-- Claim C7 witness: a two-entry listing with one subdirectory holding
two `.jpg` files and one stray file loads exactly the two jpg entries, and
a loaded image occurs in the prompt. -/
theorem catalog_load_one_entry_per_jpg_witness :
    (lifespanStartup (some [{ name := "stamp_1", isDir := true, files := ["a.jpg", "b.png", "c.jpg"] },
        { name := "notes.txt", isDir := false, files := [] }])).referenceImages
      = [("stamp_1", ["a.jpg", "c.jpg"])] ∧
    PromptPart.image "a.jpg" ∈
      buildPrompt (lifespanStartup (some [{ name := "stamp_1", isDir := true, files := ["a.jpg", "b.png", "c.jpg"] },
        { name := "notes.txt", isDir := false, files := [] }])).referenceImages "user-image" :=
  ⟨((catalog_load_one_entry_per_jpg _).1).trans (by decide),
   (catalog_load_one_entry_per_jpg _).2.2 "stamp_1" ["a.jpg", "c.jpg"] "a.jpg" "user-image"
     (by decide) (by decide)⟩

/-- Only labels of shape `page_<digits>_img_<digits>.jpg` start with a
character other than the one a planet-map key starts with. -/
theorem head_ne_of_label (lbl d1 d2 : List Char)
    (hshape : lbl = "page_".data ++ d1 ++ "_img_".data ++ d2 ++ ".jpg".data)
    (c : Char) (rest : List Char) (hc : c ≠ 'p') : c :: rest ≠ lbl := by
  intro he
  rw [hshape] at he
  have hp : "page_".data ++ d1 ++ "_img_".data ++ d2 ++ ".jpg".data
      = 'p' :: ("age_".data ++ d1 ++ "_img_".data ++ d2 ++ ".jpg".data) := rfl
  rw [hp] at he
  injection he with h1 h2
  exact hc h1

/-- Claim C8: the success-path regex captures only labels of the shape
`page_<digits>_img_<digits>.jpg`; it never fires on a response naming a
catalog object id of the planet map, and the `planet_id` of any success
response can never equal a key of `OBJECT_TO_PLANET_MAP`. -/
theorem match_regex_incompatible_with_planet_map :
    (∀ s lbl : List Char, reSearch s = some lbl →
      ∃ d1 d2 : List Char, d1 ≠ [] ∧ d2 ≠ [] ∧
        (∀ c ∈ d1, c.isDigit = true) ∧ (∀ c ∈ d2, c.isDigit = true) ∧
        lbl = "page_".data ++ d1 ++ "_img_".data ++ d2 ++ ".jpg".data) ∧
    (∀ oid pl : String, (oid, pl) ∈ OBJECT_TO_PLANET_MAP →
      reSearch ("[MATCH: " ++ oid ++ "]").data = none) ∧
    (∀ st : ServerState, ∀ payload : Payload, ∀ ext : Externals, ∀ pid : String,
      recognize st payload ext = Resp.ok (RespBody.success pid) →
      ∀ oid pl : String, (oid, pl) ∈ OBJECT_TO_PLANET_MAP → pid ≠ oid) := by
  refine ⟨fun s lbl h => reSearch_shape s lbl h, ?_, ?_⟩
  · intro oid pl hm
    simp only [OBJECT_TO_PLANET_MAP, List.mem_cons, List.not_mem_nil, or_false,
      Prod.mk.injEq] at hm
    rcases hm with ⟨rfl, rfl⟩ | ⟨rfl, rfl⟩ | ⟨rfl, rfl⟩ | ⟨rfl, rfl⟩ | ⟨rfl, rfl⟩ <;> decide
  · intro st payload ext pid hsucc oid pl hm heq
    obtain ⟨lbl, txt, hre, hpid⟩ := recognize_success_label st payload ext pid hsucc
    obtain ⟨d1, d2, hd1, hd2, hdig1, hdig2, hshape⟩ := reSearch_shape txt lbl hre
    have hform : lbl = 'p' :: (("age_".data ++ d1 ++ "_img_".data ++ d2 ++ ['.', 'j', 'p']) ++ ['g']) := by
      rw [hshape]
      simp
    have hstrip : pyStrip lbl = lbl := by
      rw [hform]
      exact pyStrip_of_ends 'p' 'g' _ (by decide) (by decide)
    have hdata : oid.data = lbl := by
      rw [← heq, hpid, hstrip]
    simp only [OBJECT_TO_PLANET_MAP, List.mem_cons, List.not_mem_nil, or_false,
      Prod.mk.injEq] at hm
    rcases hm with ⟨rfl, rfl⟩ | ⟨rfl, rfl⟩ | ⟨rfl, rfl⟩ | ⟨rfl, rfl⟩ | ⟨rfl, rfl⟩ <;>
      exact head_ne_of_label lbl d1 d2 hshape 's' _ (by decide) hdata

/-- Claim C8 witness: the shape characterisation instantiates on a
concrete model response carrying a well-formed label. -/
theorem match_regex_incompatible_with_planet_map_witness :
    ∃ d1 d2 : List Char, d1 ≠ [] ∧ d2 ≠ [] ∧
      (∀ c ∈ d1, c.isDigit = true) ∧ (∀ c ∈ d2, c.isDigit = true) ∧
      "page_12_img_3.jpg".data = "page_".data ++ d1 ++ "_img_".data ++ d2 ++ ".jpg".data :=
  match_regex_incompatible_with_planet_map.1 "[MATCH: page_12_img_3.jpg]".data
    "page_12_img_3.jpg".data (by decide)

end AistampVerify
